import Mathlib

/-!
# Verification of the trade-summary aggregation/scoring/ranking pipeline

Shallow embedding of the pipeline in `src/`:
`score_calculator.py` (z-scores, composite score, strategy filter),
`filtered_summary_aggregator.py` (summary aggregation and scenario extraction),
`runner.py` (setup aggregation, scenario extraction, order-preserving join, ranking)
and `extractor.py` (scenario directory naming).

Conventions of the embedding:
* pandas cell values after `pd.to_numeric(..., errors='coerce')` are modelled as
  `Option ℚ` (`none` = NaN / missing) — exact rational arithmetic in place of
  IEEE doubles; columns that can carry infinities (the three ratio metrics and
  the float-valued filter thresholds) use `PValue` / `XF`, which add `pinf`,
  `ninf` and `nan` constructors with IEEE comparison/multiplication semantics.
* `np.sqrt` (inside the standard deviation) and `np.log` are irrational; the
  embedding abstracts them as function parameters `sqrtFn logFn : ℚ → ℚ` and
  proves its theorems for ALL such functions, so every theorem in particular
  holds for the true square root / natural logarithm.
* A DataFrame is a `List` of row records; a column that may be absent from a
  frame is tracked by an explicit `Bool` flag on the table record.
-/

namespace TradeSummary

/-- A float cell that may hold an infinity or NaN: the possible states of a
pandas float cell after `pd.to_numeric(..., errors='coerce')` in a column such
as `sortino_ratio` where upstream division by zero can produce `±inf`. -/
inductive PValue where
  | num (q : ℚ)
  | pinf
  | ninf
  | nan
deriving DecidableEq, Repr

/-- Extended rational standing for an IEEE double parameter (used for the
`min_profit_factor` and `max_drawdown_ratio` arguments of `filter_strategies`,
which the spec exercises at `±infinity`). -/
inductive XF where
  | fin (q : ℚ)
  | pinf
  | ninf
  | nan
deriving DecidableEq, Repr

/-- IEEE `<` on extended rationals: any comparison with NaN is false. -/
def XF.ltB : XF → XF → Bool
  | .fin a, .fin b => decide (a < b)
  | .fin _, .pinf => true
  | .ninf, .fin _ => true
  | .ninf, .pinf => true
  | _, _ => false

/-- IEEE `≤` on extended rationals: any comparison with NaN is false. -/
def XF.leB : XF → XF → Bool
  | .fin a, .fin b => decide (a ≤ b)
  | .fin _, .pinf => true
  | .ninf, .fin _ => true
  | .ninf, .pinf => true
  | .pinf, .pinf => true
  | .ninf, .ninf => true
  | _, _ => false

/-- IEEE multiplication on extended rationals (`inf * 0 = NaN`). -/
def XF.mul : XF → XF → XF
  | .fin a, .fin b => .fin (a * b)
  | .fin a, .pinf => if a > 0 then .pinf else if a < 0 then .ninf else .nan
  | .fin a, .ninf => if a > 0 then .ninf else if a < 0 then .pinf else .nan
  | .pinf, .fin b => if b > 0 then .pinf else if b < 0 then .ninf else .nan
  | .ninf, .fin b => if b > 0 then .ninf else if b < 0 then .pinf else .nan
  | .pinf, .pinf => .pinf
  | .pinf, .ninf => .ninf
  | .ninf, .pinf => .ninf
  | .ninf, .ninf => .pinf
  | _, _ => .nan

/-- NaN-aware cell as `Option ℚ`: `toOpt` collapses a `PValue` after the
`replace([np.inf, -np.inf], np.nan)` step of `calculate_zscore_composite_score`
(both infinities and NaN become missing). -/
def PValue.replaceInfThenOpt : PValue → Option ℚ
  | .num q => some q
  | _ => none

/-! ## `score_calculator.calculate_z_scores`

`calculate_z_scores(df, column_name)` (score_calculator.py lines 21-62): the
column is already numeric when called from the composite-score function, so the
model takes the column directly as `List (Option ℚ)`.  `mean`/`std` are the
pandas skip-NaN statistics; `std` is the sample standard deviation (`ddof=1`),
modelled as `sqrtFn` applied to the sample variance so that the whole
development stays in computable rational arithmetic. -/

/-- The non-missing entries of a column (pandas statistics skip NaN). -/
def validEntries (xs : List (Option ℚ)) : List ℚ := xs.filterMap id

/-- `Series.mean()`: NaN (here `none`) when the column has no valid entry. -/
def colMean (xs : List (Option ℚ)) : Option ℚ :=
  if (validEntries xs).length = 0 then none
  else some ((validEntries xs).sum / (validEntries xs).length)

/-- `Series.std()` with `ddof=1`: NaN (`none`) when fewer than two valid
entries; otherwise `sqrtFn` of the sample variance. -/
def colStd (sqrtFn : ℚ → ℚ) (xs : List (Option ℚ)) : Option ℚ :=
  if (validEntries xs).length ≤ 1 then none
  else some (sqrtFn
    (((validEntries xs).map
        (fun x => (x - (validEntries xs).sum / (validEntries xs).length)
          * (x - (validEntries xs).sum / (validEntries xs).length))).sum
      / (((validEntries xs).length : ℚ) - 1)))

/-- `calculate_z_scores` (score_calculator.py lines 52-62): if the standard
deviation is `0` or NaN, or the mean is NaN, return a column of zeros
(`pd.Series(0.0, ...)` — every entry present and equal to `0`); otherwise
return `(value - mean) / std` cellwise (NaN cells stay NaN). -/
def calculate_z_scores (sqrtFn : ℚ → ℚ) (xs : List (Option ℚ)) : List (Option ℚ) :=
  match colMean xs, colStd sqrtFn xs with
  | some m, some s =>
      if s = 0 then List.replicate xs.length (some (0 : ℚ))
      else xs.map (Option.map (fun v => (v - m) / s))
  | _, _ => List.replicate xs.length (some (0 : ℚ))

/-- The z-score column as used by the composite score: NaN z-scores are filled
with `0` (score_calculator.py line 156 `z_scores[...].fillna(0)`). -/
def zFilled (sqrtFn : ℚ → ℚ) (xs : List (Option ℚ)) : List ℚ :=
  (calculate_z_scores sqrtFn xs).map (fun z => z.getD 0)

theorem length_calculate_z_scores (f : ℚ → ℚ) (xs : List (Option ℚ)) :
    (calculate_z_scores f xs).length = xs.length := by
  unfold calculate_z_scores
  cases colMean xs <;> cases colStd f xs <;> simp
  split <;> simp

theorem length_zFilled (f : ℚ → ℚ) (xs : List (Option ℚ)) :
    (zFilled f xs).length = xs.length := by
  simp [zFilled, length_calculate_z_scores]

/-! ## `score_calculator.calculate_zscore_composite_score`

(score_calculator.py lines 64-179.)  The input frame is required to contain
the five base columns `sortino_ratio, recovery_factor, profit_factor,
max_drawdown_duration, tradecount` (the function raises `ValueError`
otherwise); a row record therefore carries those five fields, already coerced
by `pd.to_numeric(..., errors='coerce')`, plus an opaque `payload`
standing for every other column of the frame. -/

/-- One row of the aggregated metrics table, after numeric coercion of the
five required columns.  The three ratio columns may carry `±inf` (division by
zero upstream); `max_drawdown_duration` and `tradecount` are plain
possibly-missing numerics.  `payload` abstracts all remaining columns. -/
structure MetricRow where
  sortino_ratio : PValue
  recovery_factor : PValue
  profit_factor : PValue
  max_drawdown_duration : Option ℚ
  tradecount : Option ℚ
  payload : Nat
deriving DecidableEq, Repr

/-- Ratio-column preparation (lines 110-124): replace `±inf` by NaN, then fill
NaN with `0`.  The resulting column is total. -/
def prepRatio (v : PValue) : ℚ := (v.replaceInfThenOpt).getD 0

/-- `log_tradecount` preparation (lines 130-139): fill NaN `tradecount` with
`0`, clip below at `0`, add `1`, and take the logarithm (`logFn`). -/
def prepLogTradecount (logFn : ℚ → ℚ) (tc : Option ℚ) : ℚ :=
  logFn (max (tc.getD 0) 0 + 1)

/-- The `sortino_ratio` column of `df_calc` as passed to the z-score step. -/
def sortinoCol (df : List MetricRow) : List (Option ℚ) :=
  df.map (fun r => some (prepRatio r.sortino_ratio))

/-- The `recovery_factor` column of `df_calc`. -/
def recoveryCol (df : List MetricRow) : List (Option ℚ) :=
  df.map (fun r => some (prepRatio r.recovery_factor))

/-- The `profit_factor` column of `df_calc`. -/
def profitCol (df : List MetricRow) : List (Option ℚ) :=
  df.map (fun r => some (prepRatio r.profit_factor))

/-- The `max_drawdown_duration` column of `df_calc` (coerced only; NaNs are
NOT filled before the z-score step). -/
def mddCol (df : List MetricRow) : List (Option ℚ) :=
  df.map (fun r => r.max_drawdown_duration)

/-- The derived `log_tradecount` column of `df_calc`. -/
def logTcCol (logFn : ℚ → ℚ) (df : List MetricRow) : List (Option ℚ) :=
  df.map (fun r => some (prepLogTradecount logFn r.tradecount))

/-- `calculate_zscore_composite_score`, steps 4-5 (lines 146-176): the five
z-score columns are computed on the prepared copy `df_calc`, NaN z-scores are
filled with `0`, and the composite starts from a zero series and accumulates
`weight * z` in the fixed dictionary order
`sortino_ratio (+0.30), recovery_factor (+0.25), profit_factor (+0.20),
max_drawdown_duration (-0.15), log_tradecount (+0.10)`. -/
def compositeScores (sqrtFn logFn : ℚ → ℚ) (df : List MetricRow) : List ℚ :=
  List.zipWith (fun a z => a + (0.10 : ℚ) * z)
    (List.zipWith (fun a z => a + (-0.15 : ℚ) * z)
      (List.zipWith (fun a z => a + (0.20 : ℚ) * z)
        (List.zipWith (fun a z => a + (0.25 : ℚ) * z)
          (List.zipWith (fun a z => a + (0.30 : ℚ) * z)
            (List.replicate df.length (0 : ℚ))
            (zFilled sqrtFn (sortinoCol df)))
          (zFilled sqrtFn (recoveryCol df)))
        (zFilled sqrtFn (profitCol df)))
      (zFilled sqrtFn (mddCol df)))
    (zFilled sqrtFn (logTcCol logFn df))

/-- `calculate_zscore_composite_score` as a whole: the function returns the
input frame with the composite score attached (`df['CompositeScore'] = ...;
return df`, lines 176-179); every pre-existing column of `df` is untouched
because all preparation happens on the copy `df_calc` (line 97). -/
def calculate_zscore_composite_score (sqrtFn logFn : ℚ → ℚ) (df : List MetricRow) :
    List (MetricRow × ℚ) :=
  df.zip (compositeScores sqrtFn logFn df)

/-! ### Row-wise characterization of the column-wise computation -/

/-- The pair (mean, std) of a column — all the column-level information the
z-score of a single cell depends on. -/
def zColStats (sqrtFn : ℚ → ℚ) (xs : List (Option ℚ)) : Option ℚ × Option ℚ :=
  (colMean xs, colStd sqrtFn xs)

/-- The filled z-score of one cell given the column statistics. -/
def zCell (st : Option ℚ × Option ℚ) (x : Option ℚ) : ℚ :=
  match st with
  | (some m, some s) => if s = 0 then 0 else (x.map (fun v => (v - m) / s)).getD 0
  | _ => 0

theorem zipWith_map_same {α β γ δ : Type} (k : β → γ → δ) (f : α → β) (g : α → γ) :
    ∀ l : List α, List.zipWith k (l.map f) (l.map g) = l.map (fun x => k (f x) (g x))
  | [] => rfl
  | x :: l => by simp [List.zipWith, zipWith_map_same k f g l]

theorem replicate_len_eq_map {α β : Type} (l : List α) (c : β) :
    List.replicate l.length c = l.map (fun _ => c) := by
  induction l with
  | nil => rfl
  | cons x l ih => simp only [List.length_cons, List.replicate_succ, List.map_cons, ih]

theorem zCell_none_left (s : Option ℚ) (x : Option ℚ) : zCell (none, s) x = 0 := rfl

theorem zCell_none_right (m : ℚ) (x : Option ℚ) : zCell (some m, none) x = 0 := rfl

theorem zCell_some (m s : ℚ) (x : Option ℚ) :
    zCell (some m, some s) x = if s = 0 then 0 else (x.map (fun v => (v - m) / s)).getD 0 := rfl

theorem zFilled_eq_map (f : ℚ → ℚ) (xs : List (Option ℚ)) :
    zFilled f xs = xs.map (fun x => zCell (zColStats f xs) x) := by
  unfold zFilled calculate_z_scores zColStats
  rcases hm : colMean xs with _ | m <;> rcases hs : colStd f xs with _ | s
  · show List.map (fun z => z.getD 0) (List.replicate xs.length (some (0 : ℚ))) =
        List.map (fun x => zCell (none, none) x) xs
    rw [replicate_len_eq_map, List.map_map]; rfl
  · show List.map (fun z => z.getD 0) (List.replicate xs.length (some (0 : ℚ))) =
        List.map (fun x => zCell (none, some s) x) xs
    rw [replicate_len_eq_map, List.map_map]; rfl
  · show List.map (fun z => z.getD 0) (List.replicate xs.length (some (0 : ℚ))) =
        List.map (fun x => zCell (some m, none) x) xs
    rw [replicate_len_eq_map, List.map_map]; rfl
  · show List.map (fun z => z.getD 0)
        (if s = 0 then List.replicate xs.length (some (0 : ℚ))
          else xs.map (Option.map (fun v => (v - m) / s))) =
        List.map (fun x => zCell (some m, some s) x) xs
    by_cases h0 : s = 0
    · rw [if_pos h0, replicate_len_eq_map, List.map_map]
      exact List.map_congr_left (fun x _ => by simp [zCell_some, h0])
    · rw [if_neg h0, List.map_map]
      exact List.map_congr_left (fun x _ => by simp [zCell_some, h0])

/-- Each row's composite score as a function of the row and the five column
statistics of the table. -/
def rowScore (sqrtFn logFn : ℚ → ℚ) (df : List MetricRow) (r : MetricRow) : ℚ :=
  0 + (0.30 : ℚ) * zCell (zColStats sqrtFn (sortinoCol df)) (some (prepRatio r.sortino_ratio))
    + (0.25 : ℚ) * zCell (zColStats sqrtFn (recoveryCol df)) (some (prepRatio r.recovery_factor))
    + (0.20 : ℚ) * zCell (zColStats sqrtFn (profitCol df)) (some (prepRatio r.profit_factor))
    + (-0.15 : ℚ) * zCell (zColStats sqrtFn (mddCol df)) r.max_drawdown_duration
    + (0.10 : ℚ) * zCell (zColStats sqrtFn (logTcCol logFn df)) (some (prepLogTradecount logFn r.tradecount))

theorem compositeScores_eq_map (f g : ℚ → ℚ) (df : List MetricRow) :
    compositeScores f g df = df.map (rowScore f g df) := by
  unfold compositeScores rowScore
  rw [replicate_len_eq_map,
    zFilled_eq_map f (sortinoCol df), zFilled_eq_map f (recoveryCol df),
    zFilled_eq_map f (profitCol df), zFilled_eq_map f (mddCol df),
    zFilled_eq_map f (logTcCol g df)]
  conv_lhs =>
    rw [show sortinoCol df = df.map (fun r => some (prepRatio r.sortino_ratio)) from rfl,
      show recoveryCol df = df.map (fun r => some (prepRatio r.recovery_factor)) from rfl,
      show profitCol df = df.map (fun r => some (prepRatio r.profit_factor)) from rfl,
      show mddCol df = df.map (fun r => r.max_drawdown_duration) from rfl,
      show logTcCol g df = df.map (fun r => some (prepLogTradecount g r.tradecount)) from rfl]
  rw [List.map_map, List.map_map, List.map_map, List.map_map, List.map_map,
    zipWith_map_same, zipWith_map_same, zipWith_map_same, zipWith_map_same, zipWith_map_same]
  rfl

/-! ### Permutation invariance of the column statistics -/

theorem colMean_perm {xs ys : List (Option ℚ)} (h : xs.Perm ys) : colMean xs = colMean ys := by
  have hv := List.Perm.filterMap (id : Option ℚ → Option ℚ) h
  unfold colMean validEntries
  rw [hv.length_eq, hv.sum_eq]

theorem colStd_perm (f : ℚ → ℚ) {xs ys : List (Option ℚ)} (h : xs.Perm ys) :
    colStd f xs = colStd f ys := by
  have hv := List.Perm.filterMap (id : Option ℚ → Option ℚ) h
  unfold colStd validEntries
  rw [hv.length_eq, hv.sum_eq, List.Perm.sum_eq (hv.map _)]

theorem zColStats_perm (f : ℚ → ℚ) {xs ys : List (Option ℚ)} (h : xs.Perm ys) :
    zColStats f xs = zColStats f ys := by
  unfold zColStats
  rw [colMean_perm h, colStd_perm f h]

theorem zip_map_self {α β : Type} (F : α → β) :
    ∀ l : List α, l.zip (l.map F) = l.map (fun x => (x, F x))
  | [] => rfl
  | x :: l => by simp only [List.map_cons, List.zip_cons_cons, zip_map_self F l]

/-! ## Claim theorems for the composite scorer -/

/-- C3: for every column used by the z-score step of the composite scorer, if
the column's standard deviation is `0`, or the standard deviation or the mean
is undefined (NaN, e.g. the column is all-missing), then the z-score assigned
to every row of the column is exactly `0` — a fully defined column of zeros,
never NaN and never an error (score_calculator.py lines 52-62). -/
theorem calculate_z_scores_degenerate_all_zero (f : ℚ → ℚ) (xs : List (Option ℚ))
    (h : colStd f xs = some 0 ∨ colStd f xs = none ∨ colMean xs = none) :
    calculate_z_scores f xs = List.replicate xs.length (some (0 : ℚ)) := by
  unfold calculate_z_scores
  rcases hm : colMean xs with _ | m <;> rcases hs : colStd f xs with _ | s
  · rfl
  · rfl
  · rfl
  · show (if s = 0 then List.replicate xs.length (some (0 : ℚ))
        else xs.map (Option.map (fun v => (v - m) / s))) =
      List.replicate xs.length (some (0 : ℚ))
    have hs0 : s = 0 := by
      rcases h with h | h | h
      · rw [hs] at h; exact Option.some.inj h
      · rw [hs] at h; exact absurd h (Option.some_ne_none _)
      · rw [hm] at h; exact absurd h (Option.some_ne_none _)
    rw [if_pos hs0]

/-- Witness for C3: a constant column (std = 0) gets z-score `0` in each row. -/
theorem calculate_z_scores_degenerate_all_zero_witness :
    (colStd (fun q => q) [some (1 : ℚ), some 1] = some 0 ∨
      colStd (fun q => q) [some (1 : ℚ), some 1] = none ∨
      colMean [some (1 : ℚ), some 1] = none) ∧
    calculate_z_scores (fun q => q) [some (1 : ℚ), some 1] =
      List.replicate ([some (1 : ℚ), some 1] : List (Option ℚ)).length (some (0 : ℚ)) :=
  ⟨Or.inl (by simp [colStd, validEntries]),
    calculate_z_scores_degenerate_all_zero (fun q => q) [some (1 : ℚ), some 1]
      (Or.inl (by simp [colStd, validEntries]))⟩

/-- C4: on every table with the five required metric columns, each row's
composite score equals
`0.30*z(sortino_ratio) + 0.25*z(recovery_factor) + 0.20*z(profit_factor)
 - 0.15*z(max_drawdown_duration) + 0.10*z(log_tradecount)`, where
`log_tradecount = logFn (clip(tradecount, min=0, fill_missing=0) + 1)` and `z`
is the whole-column z-score after the documented infinity/missing handling
(NaN z-scores filled with `0`).  Holds for every interpretation of
`sqrtFn`/`logFn`, hence for the real square root and natural logarithm. -/
theorem composite_score_weighted_sum_formula (f g : ℚ → ℚ) (df : List MetricRow)
    (i : Nat) (h : i < df.length) :
    (compositeScores f g df).getD i 0 =
      (0.30 : ℚ) * (zFilled f (sortinoCol df)).getD i 0
      + (0.25 : ℚ) * (zFilled f (recoveryCol df)).getD i 0
      + (0.20 : ℚ) * (zFilled f (profitCol df)).getD i 0
      - (0.15 : ℚ) * (zFilled f (mddCol df)).getD i 0
      + (0.10 : ℚ) * (zFilled f (logTcCol g df)).getD i 0 := by
  have hi : df[i]? = some df[i] := List.getElem?_eq_getElem h
  rw [compositeScores_eq_map,
    zFilled_eq_map f (sortinoCol df), zFilled_eq_map f (recoveryCol df),
    zFilled_eq_map f (profitCol df), zFilled_eq_map f (mddCol df),
    zFilled_eq_map f (logTcCol g df)]
  simp only [sortinoCol, recoveryCol, profitCol, mddCol, logTcCol, List.map_map]
  simp only [List.getD_eq_getElem?_getD, List.getElem?_map, hi, Option.map_some',
    Option.getD_some]
  simp only [rowScore, sortinoCol, recoveryCol, profitCol, mddCol, logTcCol, Function.comp]
  ring

/-- Witness for C4 at a concrete two-row table. -/
theorem composite_score_weighted_sum_formula_witness :
    (0 < ([⟨.num 1, .num 2, .num 3, some 4, some 5, 0⟩,
           ⟨.num 6, .nan, .pinf, none, some 0, 1⟩] : List MetricRow).length) ∧
    (compositeScores (fun q => q) (fun q => q)
        [⟨.num 1, .num 2, .num 3, some 4, some 5, 0⟩,
         ⟨.num 6, .nan, .pinf, none, some 0, 1⟩]).getD 0 0 =
      (0.30 : ℚ) * (zFilled (fun q => q) (sortinoCol
        [⟨.num 1, .num 2, .num 3, some 4, some 5, 0⟩,
         ⟨.num 6, .nan, .pinf, none, some 0, 1⟩])).getD 0 0
      + (0.25 : ℚ) * (zFilled (fun q => q) (recoveryCol
        [⟨.num 1, .num 2, .num 3, some 4, some 5, 0⟩,
         ⟨.num 6, .nan, .pinf, none, some 0, 1⟩])).getD 0 0
      + (0.20 : ℚ) * (zFilled (fun q => q) (profitCol
        [⟨.num 1, .num 2, .num 3, some 4, some 5, 0⟩,
         ⟨.num 6, .nan, .pinf, none, some 0, 1⟩])).getD 0 0
      - (0.15 : ℚ) * (zFilled (fun q => q) (mddCol
        [⟨.num 1, .num 2, .num 3, some 4, some 5, 0⟩,
         ⟨.num 6, .nan, .pinf, none, some 0, 1⟩])).getD 0 0
      + (0.10 : ℚ) * (zFilled (fun q => q) (logTcCol (fun q => q)
        [⟨.num 1, .num 2, .num 3, some 4, some 5, 0⟩,
         ⟨.num 6, .nan, .pinf, none, some 0, 1⟩])).getD 0 0 :=
  ⟨by decide,
    composite_score_weighted_sum_formula (fun q => q) (fun q => q)
      [⟨.num 1, .num 2, .num 3, some 4, some 5, 0⟩,
       ⟨.num 6, .nan, .pinf, none, some 0, 1⟩] 0 (by decide)⟩

/-- C5: the composite scorer is a pure function of its input table (in this
embedding it is a Lean function, so two runs on the same table are literally
the same term), and it is permutation-equivariant: permuting the rows of the
table permutes the row/score pairs in the same way, i.e. each row's score does
not depend on row order.  Holds for every `sqrtFn`/`logFn`. -/
theorem composite_score_permutation_equivariant (f g : ℚ → ℚ)
    (df₁ df₂ : List MetricRow) (h : df₁.Perm df₂) :
    (df₁.zip (compositeScores f g df₁)).Perm
      (df₂.zip (compositeScores f g df₂)) := by
  have hrow : rowScore f g df₁ = rowScore f g df₂ := by
    have p1 : (sortinoCol df₁).Perm (sortinoCol df₂) := h.map _
    have p2 : (recoveryCol df₁).Perm (recoveryCol df₂) := h.map _
    have p3 : (profitCol df₁).Perm (profitCol df₂) := h.map _
    have p4 : (mddCol df₁).Perm (mddCol df₂) := h.map _
    have p5 : (logTcCol g df₁).Perm (logTcCol g df₂) := h.map _
    funext r
    unfold rowScore
    rw [zColStats_perm f p1, zColStats_perm f p2, zColStats_perm f p3,
      zColStats_perm f p4, zColStats_perm f p5]
  rw [compositeScores_eq_map f g df₁, compositeScores_eq_map f g df₂,
    zip_map_self, zip_map_self, hrow]
  exact h.map _

/-- Witness for C5: swapping the two rows of a concrete table permutes the
row/score pairs accordingly. -/
theorem composite_score_permutation_equivariant_witness :
    (([⟨.num 1, .num 2, .num 3, some 4, some 5, 0⟩,
       ⟨.num 6, .nan, .pinf, none, some 0, 1⟩] : List MetricRow).Perm
      [⟨.num 6, .nan, .pinf, none, some 0, 1⟩,
       ⟨.num 1, .num 2, .num 3, some 4, some 5, 0⟩]) ∧
    (([⟨.num 1, .num 2, .num 3, some 4, some 5, 0⟩,
       ⟨.num 6, .nan, .pinf, none, some 0, 1⟩] : List MetricRow).zip
        (compositeScores (fun q => q) (fun q => q)
          [⟨.num 1, .num 2, .num 3, some 4, some 5, 0⟩,
           ⟨.num 6, .nan, .pinf, none, some 0, 1⟩])).Perm
      (([⟨.num 6, .nan, .pinf, none, some 0, 1⟩,
         ⟨.num 1, .num 2, .num 3, some 4, some 5, 0⟩] : List MetricRow).zip
        (compositeScores (fun q => q) (fun q => q)
          [⟨.num 6, .nan, .pinf, none, some 0, 1⟩,
           ⟨.num 1, .num 2, .num 3, some 4, some 5, 0⟩])) :=
  ⟨List.Perm.swap _ _ _,
    composite_score_permutation_equivariant (fun q => q) (fun q => q) _ _
      (List.Perm.swap _ _ _)⟩

theorem length_compositeScores (f g : ℚ → ℚ) (df : List MetricRow) :
    (compositeScores f g df).length = df.length := by
  rw [compositeScores_eq_map, List.length_map]

/-- C10: `calculate_zscore_composite_score` adds exactly one new column
(`CompositeScore`) and leaves every pre-existing column of every row
untouched: projecting the new column away returns the input table exactly,
one output row per input row.  In the source this holds because the numeric
coercion, infinity replacement, NaN filling and clipping are applied to the
copy `df_calc = df[required_base_columns].copy()` (score_calculator.py line
97), never to `df` itself, and line 176 only attaches the score column. -/
theorem composite_score_preserves_existing_columns (f g : ℚ → ℚ) (df : List MetricRow) :
    (calculate_zscore_composite_score f g df).map Prod.fst = df ∧
    (calculate_zscore_composite_score f g df).length = df.length := by
  constructor
  · unfold calculate_zscore_composite_score
    exact List.map_fst_zip df _ (by rw [length_compositeScores])
  · unfold calculate_zscore_composite_score
    rw [List.length_zip, length_compositeScores, Nat.min_self]

/-! ## `score_calculator.filter_strategies`

(score_calculator.py lines 182-264.)  A row carries the four columns the
filter inspects, each possibly missing (`pd.to_numeric(..., errors='coerce')`
already applied), plus an opaque payload for the remaining columns.  Whether a
column exists at all in the frame is tracked by the table's `Bool` flags
(each filter step is skipped when its source column is absent).  The
`min_profit_factor` / `max_drawdown_ratio` parameters are IEEE doubles that
the spec exercises at `±infinity`, hence their type is `XF`. -/

/-- One row of a scored table as seen by `filter_strategies`. -/
structure StratRow where
  compositeScore : Option ℚ
  profit_factor : Option ℚ
  max_drawdown : Option ℚ
  totalprofit : Option ℚ
  payload : Nat
deriving DecidableEq, Repr

/-- A scored table: column-presence flags plus the rows. -/
structure StratTable where
  hasCompositeScore : Bool
  hasProfitFactor : Bool
  hasDrawdownCols : Bool
  rows : List StratRow
deriving DecidableEq, Repr

/-- `Series.quantile(q)` with the default linear interpolation: sort the
valid values ascending, take `pos = q * (n - 1)`, and interpolate between the
neighbouring order statistics; NaN (`none`) when there is no valid value. -/
def seriesQuantile (xs : List ℚ) (q : ℚ) : Option ℚ :=
  if xs.length = 0 then none
  else
    let l := List.insertionSort (fun a b : ℚ => a ≤ b) xs
    let pos : ℚ := q * ((xs.length : ℚ) - 1)
    let i : Nat := pos.floor.toNat
    let lo := l.getD i 0
    let hi := l.getD (i + 1) lo
    some (lo + (pos - (i : ℚ)) * (hi - lo))

/-- The composite-score quantile cut (lines 205-225): runs only when the
threshold is neither `None` nor `≤ 0`, the `CompositeScore` column exists and
is not all-NaN; keeps rows whose score is `≥` the quantile of the CURRENT
row set (NaN scores compare false and are dropped); if the quantile itself is
NaN the cut is skipped. -/
def quantStep (hasCS : Bool) (qt : Option ℚ) (rows : List StratRow) : List StratRow :=
  match qt with
  | none => rows
  | some q =>
    if 0 < q then
      if hasCS ∧ ¬ rows.all (fun r => r.compositeScore = none) then
        match seriesQuantile (rows.filterMap (fun r => r.compositeScore)) q with
        | none => rows
        | some thr => rows.filter (fun r =>
            match r.compositeScore with
            | some c => decide (thr ≤ c)
            | none => false)
      else rows
    else rows

/-- The raw-profit-factor cut (lines 229-240): NaN profit factors are filled
with `0`, rows with `profit_factor >= min_profit_factor` are kept. -/
def profitFactorStep (hasPF : Bool) (minPF : XF) (rows : List StratRow) : List StratRow :=
  if hasPF then rows.filter (fun r => XF.leB minPF (XF.fin (r.profit_factor.getD 0)))
  else rows

/-- The removal mask of the drawdown cut (lines 245-257):
`(totalprofit > 0) & ~max_drawdown.isna() & ~totalprofit.isna()` and
`max_drawdown > max_drawdown_ratio * totalprofit`. -/
def drawdownMask (ratio : XF) (r : StratRow) : Bool :=
  match r.totalprofit, r.max_drawdown with
  | some t, some m => decide (0 < t) && XF.ltB (XF.mul ratio (XF.fin t)) (XF.fin m)
  | _, _ => false

/-- The drawdown cut: drop the rows matched by `drawdownMask`. -/
def drawdownStep (hasDD : Bool) (ratio : XF) (rows : List StratRow) : List StratRow :=
  if hasDD then rows.filter (fun r => ! drawdownMask ratio r) else rows

/-- `filter_strategies(df, composite_quantile_threshold, min_profit_factor,
max_drawdown_ratio)`: empty input is returned as is; otherwise the three cuts
apply in the fixed order quantile → profit factor → drawdown. -/
def filter_strategies (tbl : StratTable) (qt : Option ℚ) (minPF ratio : XF) : StratTable :=
  if tbl.rows.length = 0 then tbl
  else
    { tbl with
      rows := drawdownStep tbl.hasDrawdownCols ratio
        (profitFactorStep tbl.hasProfitFactor minPF
          (quantStep tbl.hasCompositeScore qt tbl.rows)) }

theorem drawdownMask_fin_iff (ratio : ℚ) (r : StratRow) :
    drawdownMask (XF.fin ratio) r = true ↔
      ∃ t, r.totalprofit = some t ∧ 0 < t ∧
        ∃ m, r.max_drawdown = some m ∧ ratio * t < m := by
  obtain ⟨cs, pf, mdd, tp, pl⟩ := r
  rcases tp with _ | t <;> rcases mdd with _ | m <;>
    simp [drawdownMask, XF.ltB, XF.mul]

/-- C7: the drawdown filter removes a row iff its `totalprofit` is present,
numeric and strictly positive, its `max_drawdown` is present and numeric, and
`max_drawdown > maxDrawdownRatio * totalprofit`; every row with missing,
non-numeric (coerced to NaN) or non-positive `totalprofit` is kept by this
rule. -/
theorem drawdown_filter_removes_iff (ratio : ℚ) (rows : List StratRow) (r : StratRow) :
    (r ∈ rows ∧ r ∉ drawdownStep true (XF.fin ratio) rows) ↔
      (r ∈ rows ∧ ∃ t, r.totalprofit = some t ∧ 0 < t ∧
        ∃ m, r.max_drawdown = some m ∧ ratio * t < m) := by
  unfold drawdownStep
  rw [if_pos rfl]
  constructor
  · rintro ⟨hr, hnf⟩
    refine ⟨hr, (drawdownMask_fin_iff ratio r).mp ?_⟩
    by_contra hmask
    exact hnf (List.mem_filter.mpr ⟨hr, by
      simp only [Bool.not_eq_true] at hmask
      simp [hmask]⟩)
  · rintro ⟨hr, hcond⟩
    refine ⟨hr, fun hmem => ?_⟩
    have hkeep := (List.mem_filter.mp hmem).2
    rw [(drawdownMask_fin_iff ratio r).mpr hcond] at hkeep
    exact Bool.false_ne_true hkeep

/-- C9 counterexample: with `quantileThreshold = 0`, `minProfitFactor = -inf`
and `maxDrawdownRatio = -inf`, a row with positive `totalprofit` and a present
`max_drawdown` is REMOVED (since `max_drawdown > -inf` holds), so the filter
does not return the scored input. -/
theorem filter_strategies_neg_inf_ratio_removes_rows :
    (filter_strategies ⟨true, true, true, [⟨some 1, some 2, some 60, some 100, 0⟩]⟩
        (some 0) XF.ninf XF.ninf).rows = [] := by
  decide

theorem quantStep_zero (hasCS : Bool) (rows : List StratRow) :
    quantStep hasCS (some 0) rows = rows := by
  unfold quantStep
  norm_num

theorem profitFactorStep_ninf (hasPF : Bool) (rows : List StratRow) :
    profitFactorStep hasPF XF.ninf rows = rows := by
  unfold profitFactorStep
  cases hasPF
  · rfl
  · rw [if_pos rfl]
    exact List.filter_eq_self.mpr (fun a _ => rfl)

theorem drawdownMask_pinf (r : StratRow) : drawdownMask XF.pinf r = false := by
  obtain ⟨cs, pf, mdd, tp, pl⟩ := r
  rcases tp with _ | t <;> rcases mdd with _ | m
  · rfl
  · rfl
  · rfl
  · show (decide (0 < t) && XF.ltB (XF.mul .pinf (.fin t)) (.fin m)) = false
    by_cases ht : 0 < t
    · have hm : XF.mul .pinf (.fin t) = .pinf := by simp [XF.mul, ht]
      rw [hm]
      simp [XF.ltB]
    · simp [ht]

theorem drawdownStep_pinf (hasDD : Bool) (rows : List StratRow) :
    drawdownStep hasDD XF.pinf rows = rows := by
  unfold drawdownStep
  cases hasDD
  · rfl
  · rw [if_pos rfl]
    exact List.filter_eq_self.mpr (fun a _ => by simp [drawdownMask_pinf])

/-- C9 amended: disabling all three cuts requires `quantileThreshold = 0`,
`minProfitFactor = -infinity` and `maxDrawdownRatio = +infinity` (not
`-infinity`: the ratio sits on the GREATER side of the comparison
`max_drawdown > ratio * totalprofit`, so `-infinity` removes every row with
positive profit instead of none).  With those values `filter_strategies`
returns the scored input table exactly, in input order. -/
theorem filter_strategies_disabled_returns_input (tbl : StratTable) :
    filter_strategies tbl (some 0) XF.ninf XF.pinf = tbl := by
  unfold filter_strategies
  by_cases hlen : tbl.rows.length = 0
  · rw [if_pos hlen]
  · rw [if_neg hlen, quantStep_zero, profitFactorStep_ninf, drawdownStep_pinf]

/-! ## Scenario-token extraction

Three places in the source derive a scenario token:

* `extractor.download_and_unzip_all_trades` (extractor.py lines 49-58) names
  the scenario directory `backTestId___scenarioParams` (or just
  `scenarioParams` when the backTestId part is empty or equals the symbol);
* `filtered_summary_aggregator.aggregate_filtered_summary_files`
  (lines 27-37) extracts the token from the `os.walk` root with
  `re.search(r'(s_[^/]+?)(?=/|$)', root)`, falling back to
  `re.match(r'(s_.*?)(?=_filtered_summary.csv)', filename)` when the path has
  no match and the filename starts with `s_`, and `"unknown_scenario"`
  otherwise;
* `runner.aggregate_filtered_setup_files` (lines 126-141) splits the file
  path on the separator and takes the component AFTER the first `trades`
  component (or `"unknown_scenario"`). -/

/-- The scenario directory name chosen by the extractor (extractor.py line
58). -/
def extractorScenarioDir (backTestId symbol scenarioParams : String) : String :=
  if backTestId ≠ "" ∧ backTestId ≠ symbol then backTestId ++ "___" ++ scenarioParams
  else scenarioParams

/-- Model of `re.search(r'(s_[^/]+?)(?=/|$)', root)`: the match starts at the
LEFTMOST position where `s_` is followed by at least one non-`/` character
(the lazy `[^/]+?` needs one repetition), and the lazy repetition expands
until the `(?=/|$)` lookahead holds, i.e. up to the next `/` or the end of the
string. -/
def scanS : List Char → Option (List Char)
  | [] => none
  | c0 :: rest =>
    match c0, rest with
    | 's', '_' :: c :: rest2 =>
      if c = '/' then scanS rest
      else some ('s' :: '_' :: List.takeWhile (fun ch => ch ≠ '/') (c :: rest2))
    | _, _ => scanS rest

/-- The lookahead `(?=_filtered_summary.csv)` of the filename fallback regex:
does the remaining input begin with `_filtered_summary.csv`, where the
regex metacharacter `.` matches ANY character? -/
def fscLookahead (cs : List Char) : Bool :=
  match cs with
  | '_' :: 'f' :: 'i' :: 'l' :: 't' :: 'e' :: 'r' :: 'e' :: 'd' :: '_' ::
    's' :: 'u' :: 'm' :: 'm' :: 'a' :: 'r' :: 'y' :: _ ::
    'c' :: 's' :: 'v' :: _ => true
  | _ => false

/-- The lazy `.*?` of the fallback regex: consume as few characters as
possible until `fscLookahead` holds; `acc` holds the group read so far, in
reverse. -/
def lazyFsc (acc : List Char) : List Char → Option (List Char)
  | [] => none
  | c :: rest =>
    if fscLookahead (c :: rest) then some acc.reverse
    else lazyFsc (c :: acc) rest

/-- Scenario extraction of the summary aggregator
(filtered_summary_aggregator.py lines 30-37). -/
def summaryExtractScenario (root filename : String) : String :=
  match scanS root.toList with
  | some tok => String.mk tok
  | none =>
    if filename.startsWith "s_" then
      match filename.toList with
      | 's' :: '_' :: rest =>
        match lazyFsc ['_', 's'] rest with
        | some grp => String.mk grp
        | none => "unknown_scenario"
      | _ => "unknown_scenario"
    else "unknown_scenario"

/-- Scenario extraction of the setup aggregator (runner.py lines 132-141):
the path component right after the first `trades` component. -/
def setupExtractScenario (pathParts : List String) : String :=
  if pathParts.contains "trades" then
    match pathParts.get? (pathParts.indexOf "trades" + 1) with
    | some s => s
    | none => "unknown_scenario"
  else "unknown_scenario"

/-- C2 (code-bug evidence): for a scenario directory produced by the extractor
WITH a backTestId prefix — the layout runner.py line 130 itself documents
(`output/symbol/trades/backTestId___scenario_params/trades/filtered-*.csv`) —
the summary aggregation's regex extracts only the `s_...` suffix of the
directory name, while the setup aggregation takes the whole directory
component: the two tokens differ, violating the spec's invariant that both
extraction rules yield identical tokens for the same scenario. -/
theorem scenario_extraction_rules_disagree_on_prefixed_dirs :
    extractorScenarioDir "raspberry-iguana--20250605125937" "btc-1mF"
        "s_-25420..-1059..2118" =
      "raspberry-iguana--20250605125937___s_-25420..-1059..2118" ∧
    summaryExtractScenario
        "output/btc-1mF/trades/raspberry-iguana--20250605125937___s_-25420..-1059..2118"
        "x_filtered_summary.csv" = "s_-25420..-1059..2118" ∧
    setupExtractScenario
        ["output", "btc-1mF", "trades",
          "raspberry-iguana--20250605125937___s_-25420..-1059..2118",
          "trades", "filtered-setups.csv"] =
      "raspberry-iguana--20250605125937___s_-25420..-1059..2118" ∧
    ("s_-25420..-1059..2118" : String) ≠
      "raspberry-iguana--20250605125937___s_-25420..-1059..2118" := by
  refine ⟨by decide, by decide, by decide, by decide⟩

/-! ## The two aggregators

`filtered_summary_aggregator.aggregate_filtered_summary_files` (lines 7-69)
and `runner.aggregate_filtered_setup_files` (lines 105-190).  Reading one CSV
file is abstracted by `CsvRead`: it either yields a parsed table (possibly
with zero rows, e.g. a header-only file), or raises pandas'
`EmptyDataError("No columns to parse from file")` for a genuinely empty file,
or raises some other error. -/

/-- Outcome of `pd.read_csv` on one located file. -/
inductive CsvRead (α : Type) where
  | table (rows : List α)
  | emptyFile
  | failOther
deriving DecidableEq, Repr

/-- A summary row after aggregation: the scenario tag inserted by the
aggregator, the row's `CompositeScore` cell, and an opaque payload for the
remaining columns. -/
structure SumRow where
  scenario : String
  score : Option ℚ
  payload : Nat
deriving DecidableEq, Repr

/-- A `*_filtered_summary.csv` file as located by `os.walk`: the directory
(`root`), the file name, and its parse outcome (rows = score cell +
payload). -/
structure SummarySource where
  root : String
  filename : String
  content : CsvRead (Option ℚ × Nat)
deriving DecidableEq, Repr

/-- The per-file `try` block of the summary aggregator (lines 24-53): ANY
exception while reading is caught, printed and skipped, so a failing file
simply contributes nothing; a parsed file is tagged with the extracted
scenario token (the tag's column position next to TraderID is not
modelled). -/
def readSummaryFile (f : SummarySource) : Option (List SumRow) :=
  match f.content with
  | .table rows =>
      some (rows.map (fun rc => ⟨summaryExtractScenario f.root f.filename, rc.1, rc.2⟩))
  | _ => none

/-- Descending `CompositeScore` order with NaN last (`sort_values(by=
"CompositeScore", ascending=False)`, default `na_position='last'`). -/
def scoreDescLe (a b : Option ℚ) : Bool :=
  match a, b with
  | some x, some y => decide (y ≤ x)
  | some _, none => true
  | none, some _ => false
  | none, none => true

/-- `aggregate_filtered_summary_files` (lines 55-69): concatenate the parsed
tables, sort by `CompositeScore` descending when the combined frame has that
column (`hasCS`), and raise `"No valid files to aggregate."` iff NO file
contributed a parsed table.  (`sort_values` uses the default
`kind='quicksort'`, whose tie order is unspecified — see `npArgsortIdx`; the
model places ties in stable order, which the C8 theorem does not rely on.) -/
def aggregate_filtered_summary_files (hasCS : Bool) (files : List SummarySource) :
    Except String (List SumRow) :=
  if (files.filterMap readSummaryFile).isEmpty then .error "No valid files to aggregate."
  else .ok (if hasCS then
      List.insertionSort (fun a b => scoreDescLe a.score b.score = true)
        (files.filterMap readSummaryFile).flatten
    else (files.filterMap readSummaryFile).flatten)

/-- A setup row after aggregation: inserted scenario and symbol tags plus an
opaque payload for the parameter columns. -/
structure SetupRow where
  scenario : String
  symbol : String
  payload : Nat
deriving DecidableEq, Repr

/-- A `filtered-*.csv` file as found by the glob
`output/*/trades/*/trades/filtered-*.csv`: its path split on the separator,
and its parse outcome. -/
structure SetupSource where
  pathParts : List String
  content : CsvRead Nat
deriving DecidableEq, Repr

/-- Tagging of one parsed setup file (runner.py lines 127-150): symbol =
`path_parts[1].split("_")[0]`, scenario from the path. -/
def tagSetupRows (f : SetupSource) (rows : List Nat) : List SetupRow :=
  rows.map (fun p =>
    ⟨setupExtractScenario f.pathParts, ((f.pathParts.getD 1 "").splitOn "_").headD "", p⟩)

/-- The per-file loop of the setup aggregator (lines 122-162): a file whose
read raises the `"No columns to parse from file"` error is skipped with a
warning; ANY other error is re-raised, aborting the whole aggregation. -/
def collectSetupTables : List SetupSource → Except String (List (List SetupRow))
  | [] => .ok []
  | f :: rest =>
    match f.content with
    | .table rows => (collectSetupTables rest).map (fun ds => tagSetupRows f rows :: ds)
    | .emptyFile => collectSetupTables rest
    | .failOther => .error "Error processing file"

/-- `aggregate_filtered_setup_files` (runner.py lines 105-190): raises when
the glob matched no files; processes each file (skipping genuinely empty
ones, aborting on any other error); raises `"No valid data found in any
files."` when every matched file was skipped; otherwise returns the
concatenation.  (The `Unnamed: 0` column drop and the scenario/rank column
reordering act on columns abstracted into the payload.) -/
def aggregate_filtered_setup_files (files : List SetupSource) :
    Except String (List SetupRow) :=
  if files.isEmpty then .error "No filtered setup files found."
  else
    (collectSetupTables files).bind (fun dfs =>
      if dfs.isEmpty then .error "No valid data found in any files." else .ok dfs.flatten)

/-- Does an aggregation run abort with an error? -/
def isAggFailure {α : Type} (x : Except String α) : Bool :=
  match x with
  | .error _ => true
  | .ok _ => false

/-- C8 counterexample: (1) the summary aggregator silently SKIPS a located
file that fails to parse for a reason other than being genuinely empty — the
claim requires this to be a fatal error — and still returns output; (2) with
a single header-only file contributing zero rows it succeeds with empty
output, although the claim requires an aggregation error when zero files
contribute rows. -/
theorem summary_aggregator_skips_unparsable_file :
    aggregate_filtered_summary_files true
        [⟨"output/sym/trades/s_a", "x_filtered_summary.csv", .table [(some 1, 0)]⟩,
         ⟨"output/sym/trades/s_b", "y_filtered_summary.csv", .failOther⟩] =
      .ok [⟨"s_a", some 1, 0⟩] ∧
    aggregate_filtered_summary_files true
        [⟨"output/sym/trades/s_a", "x_filtered_summary.csv", .table []⟩] =
      .ok [] := by
  refine ⟨rfl, rfl⟩

theorem isAggFailure_map {α β : Type} (g : α → β) (x : Except String α) :
    isAggFailure (x.map g) = isAggFailure x := by
  cases x <;> rfl

theorem readSummaryFile_none_iff (f : SummarySource) :
    readSummaryFile f = none ↔ ∀ rows, f.content ≠ CsvRead.table rows := by
  unfold readSummaryFile
  rcases hc : f.content with rows | _ | _
  · constructor
    · intro h
      exact absurd h (Option.some_ne_none _)
    · intro h
      exact absurd rfl (h rows)
  · exact ⟨fun _ rows h' => CsvRead.noConfusion h', fun _ => rfl⟩
  · exact ⟨fun _ rows h' => CsvRead.noConfusion h', fun _ => rfl⟩

theorem summary_agg_failure_iff (hasCS : Bool) (sfiles : List SummarySource) :
    isAggFailure (aggregate_filtered_summary_files hasCS sfiles) = true ↔
      ∀ f ∈ sfiles, ∀ rows, f.content ≠ CsvRead.table rows := by
  unfold aggregate_filtered_summary_files
  by_cases hE : (sfiles.filterMap readSummaryFile).isEmpty = true
  · rw [if_pos hE]
    rw [List.isEmpty_iff, List.filterMap_eq_nil_iff] at hE
    constructor
    · intro _ f hf rows
      exact (readSummaryFile_none_iff f).mp (hE f hf) rows
    · intro _
      rfl
  · rw [if_neg hE]
    constructor
    · intro h
      exact absurd h (by simp [isAggFailure])
    · intro hall
      exfalso
      apply hE
      rw [List.isEmpty_iff, List.filterMap_eq_nil_iff]
      intro f hf
      exact (readSummaryFile_none_iff f).mpr (hall f hf)

theorem collectSetupTables_failure_iff (files : List SetupSource) :
    isAggFailure (collectSetupTables files) = true ↔
      ∃ f ∈ files, f.content = CsvRead.failOther := by
  induction files with
  | nil => simp [collectSetupTables, isAggFailure]
  | cons f rest ih =>
    rcases hc : f.content with rows | _ | _
    · simp only [collectSetupTables, hc, isAggFailure_map, ih, List.mem_cons,
        exists_eq_or_imp, hc]
      simp
    · simp only [collectSetupTables, hc, ih, List.mem_cons, exists_eq_or_imp, hc]
      simp
    · simp only [collectSetupTables, hc, List.mem_cons, exists_eq_or_imp, hc]
      simp [isAggFailure]

theorem collectSetupTables_ok_of_no_fail (files : List SetupSource)
    (h : ∀ f ∈ files, f.content ≠ CsvRead.failOther) :
    ∃ dfs, collectSetupTables files = .ok dfs ∧
      (dfs.isEmpty = true ↔ ∀ f ∈ files, ∀ rows, f.content ≠ CsvRead.table rows) := by
  induction files with
  | nil => exact ⟨[], rfl, by simp⟩
  | cons f rest ih =>
    obtain ⟨dfs, hok, hiff⟩ := ih (fun g hg => h g (List.mem_cons_of_mem f hg))
    rcases hc : f.content with rows | _ | _
    · refine ⟨tagSetupRows f rows :: dfs, ?_, ?_⟩
      · simp only [collectSetupTables, hc, hok, Except.map]
      · simp only [List.isEmpty_cons]
        constructor
        · intro hfalse
          exact absurd hfalse (by simp)
        · intro hall
          exact absurd hc (hall f (List.mem_cons_self f rest) rows)
    · refine ⟨dfs, by simp only [collectSetupTables, hc, hok], ?_⟩
      rw [hiff]
      constructor
      · intro hall g hg rows
        rcases List.mem_cons.mp hg with hg | hg
        · rw [hg, hc]
          exact fun h' => CsvRead.noConfusion h'
        · exact hall g hg rows
      · intro hall g hg rows
        exact hall g (List.mem_cons_of_mem f hg) rows
    · exact absurd hc (h f (List.mem_cons_self f rest))

/-- C8 amended: each aggregator raises an aggregation error exactly when no
file contributes a parsed table — but the treatment of a nonzero unparsable
file differs between the two.  The SETUP aggregator behaves as the claim
says: zero matched files is an error, a file whose parse error is not the
genuinely-empty `"No columns to parse from file"` case is fatal, genuinely
empty files are skipped, and it fails when every file was skipped.  The
SUMMARY aggregator, however, skips EVERY unreadable file (empty or not) with
a logged message and fails only when no file could be parsed; a file parsing
to zero rows counts as a contribution, so a run whose parsed files are all
header-only produces empty output without an error. -/
theorem aggregators_fail_iff_no_contribution (hasCS : Bool)
    (sfiles : List SummarySource) (files : List SetupSource) :
    (isAggFailure (aggregate_filtered_summary_files hasCS sfiles) = true ↔
      ∀ f ∈ sfiles, ∀ rows, f.content ≠ CsvRead.table rows) ∧
    (isAggFailure (aggregate_filtered_setup_files files) = true ↔
      (files = [] ∨ (∃ f ∈ files, f.content = CsvRead.failOther) ∨
        ∀ f ∈ files, ∀ rows, f.content ≠ CsvRead.table rows)) := by
  refine ⟨summary_agg_failure_iff hasCS sfiles, ?_⟩
  unfold aggregate_filtered_setup_files
  by_cases hnil : files = []
  · subst hnil
    simp [isAggFailure]
  · rw [if_neg (by simpa [List.isEmpty_iff] using hnil)]
    by_cases hfail : ∃ f ∈ files, f.content = CsvRead.failOther
    · obtain ⟨e, he⟩ : ∃ e, collectSetupTables files = .error e := by
        have hft := (collectSetupTables_failure_iff files).mpr hfail
        rcases hco : collectSetupTables files with e | dfs
        · exact ⟨e, rfl⟩
        · rw [hco] at hft
          exact absurd hft (by simp [isAggFailure])
      rw [he]
      show isAggFailure (Except.error _) = true ↔ _
      simp only [isAggFailure]
      exact ⟨fun _ => Or.inr (Or.inl hfail), fun _ => by trivial⟩
    · have hnofail : ∀ f ∈ files, f.content ≠ CsvRead.failOther := by
        intro f hf hc
        exact hfail ⟨f, hf, hc⟩
      obtain ⟨dfs, hok, hiff⟩ := collectSetupTables_ok_of_no_fail files hnofail
      rw [hok]
      show isAggFailure (if dfs.isEmpty = true then Except.error _ else Except.ok _) = true ↔ _
      by_cases hdfs : dfs.isEmpty = true
      · rw [if_pos hdfs]
        simp only [isAggFailure]
        exact ⟨fun _ => Or.inr (Or.inr (hiff.mp hdfs)), fun _ => by trivial⟩
      · rw [if_neg hdfs]
        simp only [isAggFailure]
        constructor
        · intro h
          exact absurd h (by simp)
        · intro hdisj
          rcases hdisj with h | h | h
          · exact absurd h hnil
          · exact absurd h hfail
          · exact absurd (hiff.mpr h) hdfs

/-! ## The order-preserving joiner

`runner.sort_filtered_setups_by_summary` (runner.py lines 222-287).  Both
frames are reduced to their join-relevant content: the `(scenario, traderid)`
key of each row plus an opaque payload; the presence of BOTH key columns in a
frame (`'scenario'/'traderid'` in the setups, `'Scenario'/'TraderID'` in the
summary) is a `Bool` flag on the table. -/

/-- A row of either frame, reduced to its join key and an opaque payload. -/
structure JRow where
  scenario : String
  traderid : String
  payload : Nat
deriving DecidableEq, Repr

/-- The aggregated filtered-setups frame. -/
structure SetupsTable where
  hasKeyCols : Bool
  rows : List JRow
deriving DecidableEq, Repr

/-- The ranked summary frame. -/
structure SummaryTable where
  hasKeyCols : Bool
  rows : List JRow
deriving DecidableEq, Repr

/-- `order_df` (runner.py lines 244-250): the summary's `(scenario, traderid)`
pairs with `sort_order = range(len(order_df))`. -/
def orderFrameFrom (i : Nat) : List JRow → List (String × String × Nat)
  | [] => []
  | s :: rest => (s.scenario, s.traderid, i) :: orderFrameFrom (i + 1) rest

/-- `order_df` starting at sort index `0`. -/
def orderFrame (summary : List JRow) : List (String × String × Nat) :=
  orderFrameFrom 0 summary

/-- The `order_df` rows matching one setup row's key. -/
def matchingOrders (order : List (String × String × Nat)) (r : JRow) :
    List (String × String × Nat) :=
  order.filter (fun o => decide (o.1 = r.scenario ∧ o.2.1 = r.traderid))

/-- `pd.merge(filtered_setups_df, order_df, how='left', on=['scenario',
'traderid'])` (lines 255-260): each left row is kept in left order; a row
with no key match gets NaN `sort_order`, a row with matches is expanded to
one output row per matching `order_df` row, in `order_df` order. -/
def leftMergeOrder (setups : List JRow) (order : List (String × String × Nat)) :
    List (JRow × Option Nat) :=
  setups.flatMap (fun r =>
    if (matchingOrders order r).isEmpty then [(r, none)]
    else (matchingOrders order r).map (fun o => (r, some o.2.2)))

/-- `sort_values(by='sort_order', na_position='last')` order on merged rows. -/
def sortOrderLe (a b : JRow × Option Nat) : Bool :=
  match a.2, b.2 with
  | some x, some y => decide (x ≤ y)
  | some _, none => true
  | none, some _ => false
  | none, none => true

/-- `sort_filtered_setups_by_summary` (runner.py lines 222-287): if either
frame lacks its key columns, the setups are written UNCHANGED and returned
(no consistency check); otherwise the left merge is built, any row with NaN
`sort_order` (`unmerged_count > 0`, lines 263-266) raises BEFORE anything is
written, and on success the merged rows are sorted by `sort_order` and the
helper column is dropped.  (`sort_values` default `kind='quicksort'` has
unspecified tie order — ties arise only from duplicate summary keys; the
model sorts stably, and the claim theorem uses only sortedness.) -/
def sort_filtered_setups_by_summary (setups : SetupsTable) (summary : SummaryTable) :
    Except String (List JRow) :=
  if setups.hasKeyCols = false then .ok setups.rows
  else if summary.hasKeyCols = false then .ok setups.rows
  else if 0 < ((leftMergeOrder setups.rows (orderFrame summary.rows)).filter
      (fun p => p.2.isNone)).length then
    .error "rows in filtered setups did not find a match in the summary"
  else
    .ok ((List.insertionSort (fun a b => sortOrderLe a b = true)
      (leftMergeOrder setups.rows (orderFrame summary.rows))).map Prod.fst)

theorem exists_order_of_mem (sum : List JRow) (s : JRow) (hs : s ∈ sum) :
    ∀ i, ∃ j, (s.scenario, s.traderid, j) ∈ orderFrameFrom i sum := by
  induction sum with
  | nil => cases hs
  | cons a rest ih =>
    intro i
    rcases List.mem_cons.mp hs with h | h
    · subst h
      exact ⟨i, List.mem_cons_self _ _⟩
    · obtain ⟨j, hj⟩ := ih h (i + 1)
      exact ⟨j, List.mem_cons_of_mem _ hj⟩

theorem mem_order_imp (sum : List JRow) :
    ∀ i o, o ∈ orderFrameFrom i sum →
      ∃ s ∈ sum, o.1 = s.scenario ∧ o.2.1 = s.traderid := by
  induction sum with
  | nil => intro i o ho; cases ho
  | cons a rest ih =>
    intro i o ho
    rcases List.mem_cons.mp ho with h | h
    · exact ⟨a, List.mem_cons_self _ _, by rw [h], by rw [h]⟩
    · obtain ⟨s, hs, h1, h2⟩ := ih (i + 1) o h
      exact ⟨s, List.mem_cons_of_mem _ hs, h1, h2⟩

theorem matchingOrders_nil_iff (sum : List JRow) (r : JRow) :
    matchingOrders (orderFrame sum) r = [] ↔
      ∀ s ∈ sum, ¬(s.scenario = r.scenario ∧ s.traderid = r.traderid) := by
  unfold matchingOrders orderFrame
  rw [List.filter_eq_nil_iff]
  constructor
  · intro h s hs hkey
    obtain ⟨j, hj⟩ := exists_order_of_mem sum s hs 0
    have hno := h _ hj
    rw [decide_eq_true_eq] at hno
    exact hno ⟨hkey.1, hkey.2⟩
  · intro h o ho
    obtain ⟨s, hsmem, h1, h2⟩ := mem_order_imp sum 0 o ho
    rw [decide_eq_true_eq]
    rintro ⟨e1, e2⟩
    exact h s hsmem ⟨h1 ▸ e1, h2 ▸ e2⟩

theorem mem_leftMerge_none_iff (setups : List JRow) (order : List (String × String × Nat))
    (r : JRow) :
    (r, (none : Option Nat)) ∈ leftMergeOrder setups order ↔
      r ∈ setups ∧ matchingOrders order r = [] := by
  unfold leftMergeOrder
  rw [List.mem_flatMap]
  constructor
  · rintro ⟨a, ha, hmem⟩
    by_cases he : (matchingOrders order a).isEmpty
    · rw [if_pos he] at hmem
      rcases List.mem_singleton.mp hmem with h
      have hra : r = a := congrArg Prod.fst h
      subst hra
      exact ⟨ha, List.isEmpty_iff.mp he⟩
    · rw [if_neg he] at hmem
      obtain ⟨o, _, ho⟩ := List.mem_map.mp hmem
      exact absurd (congrArg Prod.snd ho) (by simp)
  · rintro ⟨hr, hnil⟩
    refine ⟨r, hr, ?_⟩
    rw [if_pos (by rw [List.isEmpty_iff]; exact hnil)]
    exact List.mem_singleton.mpr rfl

theorem mem_leftMerge_of_matching (setups : List JRow) (order : List (String × String × Nat))
    (r : JRow) (o : String × String × Nat) (hr : r ∈ setups) (ho : o ∈ matchingOrders order r) :
    (r, some o.2.2) ∈ leftMergeOrder setups order := by
  unfold leftMergeOrder
  rw [List.mem_flatMap]
  refine ⟨r, hr, ?_⟩
  rw [if_neg (by rw [List.isEmpty_iff]; exact List.ne_nil_of_mem ho)]
  exact List.mem_map.mpr ⟨o, ho, rfl⟩

theorem sortOrderLe_total : ∀ a b : JRow × Option Nat,
    sortOrderLe a b = true ∨ sortOrderLe b a = true := by
  intro a b
  rcases a with ⟨ra, _ | x⟩ <;> rcases b with ⟨rb, _ | y⟩ <;>
    (simp [sortOrderLe]; try omega)

theorem sortOrderLe_trans : ∀ a b c : JRow × Option Nat,
    sortOrderLe a b = true → sortOrderLe b c = true → sortOrderLe a c = true := by
  intro a b c hab hbc
  rcases a with ⟨ra, _ | x⟩ <;> rcases b with ⟨rb, _ | y⟩ <;> rcases c with ⟨rc, _ | z⟩ <;>
    (simp_all [sortOrderLe]; try omega)

/-- C1 counterexample: when the setups frame lacks its key columns ('scenario'
and 'traderid'), the joiner takes the skip branch (runner.py lines 230-234):
it SAVES and returns the setup rows unchanged, although a setup row matches
no summary row and no join-consistency error is raised — a third outcome in
which a row is emitted unmatched and without a rank. -/
theorem joiner_missing_key_columns_emits_unmatched_rows :
    sort_filtered_setups_by_summary ⟨false, [⟨"s_a", "t1", 0⟩]⟩ ⟨true, [⟨"s_b", "t2", 1⟩]⟩ =
      .ok [⟨"s_a", "t1", 0⟩] ∧
    ∀ s ∈ (⟨true, [⟨"s_b", "t2", 1⟩]⟩ : SummaryTable).rows,
      ¬(s.scenario = "s_a" ∧ s.traderid = "t1") := by
  refine ⟨rfl, by decide⟩

/-- C1 amended: PROVIDED both frames carry their join-key columns, the joiner
has exactly two outcomes: either some setup row's `(scenario, traderid)` key
matches no summary row and it raises a join-consistency error without
publishing any output, or every setup row's key matches a summary row and it
returns the merged rows sorted by the matched summary position, with every
setup row present in the output (none silently dropped).  When a key column
is missing the joiner instead writes the setup rows unchanged with no
consistency check (see the counterexample). -/
theorem joiner_total_match_or_error (setups : SetupsTable) (summary : SummaryTable)
    (hs : setups.hasKeyCols = true) (hm : summary.hasKeyCols = true) :
    (∃ e, sort_filtered_setups_by_summary setups summary = .error e ∧
      ∃ r ∈ setups.rows, ∀ s ∈ summary.rows,
        ¬(s.scenario = r.scenario ∧ s.traderid = r.traderid)) ∨
    (∃ ms, sort_filtered_setups_by_summary setups summary = .ok (ms.map Prod.fst) ∧
      ms.Perm (leftMergeOrder setups.rows (orderFrame summary.rows)) ∧
      List.Pairwise (fun a b => sortOrderLe a b = true) ms ∧
      (∀ r ∈ setups.rows, ∃ s ∈ summary.rows,
        s.scenario = r.scenario ∧ s.traderid = r.traderid) ∧
      (∀ r ∈ setups.rows, r ∈ ms.map Prod.fst)) := by
  unfold sort_filtered_setups_by_summary
  rw [hs, hm]
  rw [if_neg (by decide), if_neg (by decide)]
  by_cases hun : 0 < ((leftMergeOrder setups.rows (orderFrame summary.rows)).filter
      (fun p => p.2.isNone)).length
  · left
    rw [if_pos hun]
    refine ⟨_, rfl, ?_⟩
    obtain ⟨p, hp, hpn⟩ : ∃ p ∈ leftMergeOrder setups.rows (orderFrame summary.rows),
        p.2.isNone = true := by
      rcases hflt : (leftMergeOrder setups.rows (orderFrame summary.rows)).filter
          (fun p => p.2.isNone) with _ | ⟨p, rest⟩
      · rw [hflt] at hun
        exact absurd hun (by simp)
      · have hpmem : p ∈ (leftMergeOrder setups.rows (orderFrame summary.rows)).filter
            (fun p => p.2.isNone) := by
          rw [hflt]
          exact List.mem_cons_self _ _
        exact ⟨p, (List.mem_filter.mp hpmem).1, (List.mem_filter.mp hpmem).2⟩
    obtain ⟨r, pn⟩ := p
    have hpn' : pn = none := Option.isNone_iff_eq_none.mp hpn
    subst hpn'
    have hm2 := (mem_leftMerge_none_iff setups.rows (orderFrame summary.rows) r).mp hp
    exact ⟨r, hm2.1, (matchingOrders_nil_iff summary.rows r).mp hm2.2⟩
  · right
    rw [if_neg hun]
    have hnonone : ∀ r : JRow,
        (r, (none : Option Nat)) ∉ leftMergeOrder setups.rows (orderFrame summary.rows) := by
      intro r hmem
      apply hun
      exact List.length_pos_of_mem (List.mem_filter.mpr ⟨hmem, rfl⟩)
    have hmatched : ∀ r ∈ setups.rows, matchingOrders (orderFrame summary.rows) r ≠ [] := by
      intro r hr hnil
      exact hnonone r ((mem_leftMerge_none_iff setups.rows (orderFrame summary.rows) r).mpr
        ⟨hr, hnil⟩)
    haveI instTot : IsTotal (JRow × Option Nat) (fun a b => sortOrderLe a b = true) :=
      ⟨sortOrderLe_total⟩
    haveI instTrans : IsTrans (JRow × Option Nat) (fun a b => sortOrderLe a b = true) :=
      ⟨sortOrderLe_trans⟩
    refine ⟨List.insertionSort (fun a b => sortOrderLe a b = true)
      (leftMergeOrder setups.rows (orderFrame summary.rows)), rfl,
      List.perm_insertionSort _ _, List.sorted_insertionSort _ _, ?_, ?_⟩
    · intro r hr
      rcases hmo : matchingOrders (orderFrame summary.rows) r with _ | ⟨o, os⟩
      · exact absurd hmo (hmatched r hr)
      · have homem : o ∈ matchingOrders (orderFrame summary.rows) r := by
          rw [hmo]
          exact List.mem_cons_self _ _
        have hpred := List.of_mem_filter homem
        rw [decide_eq_true_eq] at hpred
        obtain ⟨s, hsmem, h1, h2⟩ :=
          mem_order_imp summary.rows 0 o (List.mem_of_mem_filter homem)
        exact ⟨s, hsmem, h1 ▸ hpred.1, h2 ▸ hpred.2⟩
    · intro r hr
      rcases hmo : matchingOrders (orderFrame summary.rows) r with _ | ⟨o, os⟩
      · exact absurd hmo (hmatched r hr)
      · have homem : o ∈ matchingOrders (orderFrame summary.rows) r := by
          rw [hmo]
          exact List.mem_cons_self _ _
        have hmm := mem_leftMerge_of_matching setups.rows (orderFrame summary.rows) r o hr homem
        have hms : (r, some o.2.2) ∈ List.insertionSort (fun a b => sortOrderLe a b = true)
            (leftMergeOrder setups.rows (orderFrame summary.rows)) :=
          (List.perm_insertionSort _ _).mem_iff.mpr hmm
        exact List.mem_map.mpr ⟨(r, some o.2.2), hms, rfl⟩

/-- A concrete setups frame with key columns, for the C1 witness. -/
def jSetupsEx : SetupsTable := ⟨true, [⟨"s_a", "t1", 7⟩]⟩

/-- A concrete summary frame with key columns, for the C1 witness. -/
def jSummaryEx : SummaryTable := ⟨true, [⟨"s_a", "t1", 9⟩]⟩

/-- Witness for the amended C1 at a concrete matched pair of frames. -/
theorem joiner_total_match_or_error_witness :
    (jSetupsEx.hasKeyCols = true) ∧ (jSummaryEx.hasKeyCols = true) ∧
    ((∃ e, sort_filtered_setups_by_summary jSetupsEx jSummaryEx = .error e ∧
        ∃ r ∈ jSetupsEx.rows, ∀ s ∈ jSummaryEx.rows,
          ¬(s.scenario = r.scenario ∧ s.traderid = r.traderid)) ∨
      (∃ ms, sort_filtered_setups_by_summary jSetupsEx jSummaryEx = .ok (ms.map Prod.fst) ∧
        ms.Perm (leftMergeOrder jSetupsEx.rows (orderFrame jSummaryEx.rows)) ∧
        List.Pairwise (fun a b => sortOrderLe a b = true) ms ∧
        (∀ r ∈ jSetupsEx.rows, ∃ s ∈ jSummaryEx.rows,
          s.scenario = r.scenario ∧ s.traderid = r.traderid) ∧
        (∀ r ∈ jSetupsEx.rows, r ∈ ms.map Prod.fst))) :=
  ⟨rfl, rfl, joiner_total_match_or_error jSetupsEx jSummaryEx rfl rfl⟩

/-! ## The sort underlying the Ranker

The Ranker is `combined_df.sort_values(by="CompositeScore", inplace=True,
ascending=False)` (filtered_summary_aggregator.py line 61) followed by
`add_rank_column_to_summary` (runner.py lines 349-363, `Rank = 1..N` by final
position).  `sort_values` is called WITHOUT `kind`, so pandas uses the
default `kind='quicksort'`: numpy's introsort, which pandas documents as NOT
stable.  To evaluate its tie behaviour, the following is a model of numpy's
`aquicksort` (the argsort variant of `npysort/quicksort`): median-of-three
pivot, Hoare-style partition that swaps index entries, partitions of at most
`SMALL_QUICKSORT = 15` elements finished by insertion sort.  The depth-limit
heapsort fallback is omitted — it is not reached at the sizes evaluated here
— and the float `LT` is plain `<` because pandas' `nargsort` removes NaNs
before calling argsort.  Fuel-based recursion: every loop takes a fuel
argument ample for the inputs considered. -/

/-- Value lookup `v[i]` (total, default `0`). -/
def lgetQ (v : List ℚ) (i : Nat) : ℚ := v.getD i 0

/-- Index lookup `tosort[i]` (total, default `0`). -/
def igeti (idx : List Nat) (i : Nat) : Nat := idx.getD i 0

/-- `INTP_SWAP(tosort[i], tosort[j])`. -/
def iswap (idx : List Nat) (i j : Nat) : List Nat :=
  (idx.set i (igeti idx j)).set j (igeti idx i)

/-- `do ++pi; while (v[*pi] < vp)`. -/
def walkUp (v : List ℚ) (idx : List Nat) (pivot : ℚ) : Nat → Nat → Nat
  | pi0, 0 => pi0 + 1
  | pi0, fuel + 1 =>
    if lgetQ v (igeti idx (pi0 + 1)) < pivot then walkUp v idx pivot (pi0 + 1) fuel
    else pi0 + 1

/-- `do --pj; while (vp < v[*pj])`. -/
def walkDown (v : List ℚ) (idx : List Nat) (pivot : ℚ) : Nat → Nat → Nat
  | pj0, 0 => pj0 - 1
  | pj0, fuel + 1 =>
    if pivot < lgetQ v (igeti idx (pj0 - 1)) then walkDown v idx pivot (pj0 - 1) fuel
    else pj0 - 1

/-- The partition loop: advance `pi`/`pj`, stop when they cross, otherwise
swap and continue; returns the updated index array and the final `pi`. -/
def partLoop (v : List ℚ) (pivot : ℚ) : List Nat → Nat → Nat → Nat → List Nat × Nat
  | idx, pi0, _, 0 => (idx, pi0)
  | idx, pi0, pj0, fuel + 1 =>
    if walkDown v idx pivot pj0 fuel ≤ walkUp v idx pivot pi0 fuel then
      (idx, walkUp v idx pivot pi0 fuel)
    else
      partLoop v pivot
        (iswap idx (walkUp v idx pivot pi0 fuel) (walkDown v idx pivot pj0 fuel))
        (walkUp v idx pivot pi0 fuel) (walkDown v idx pivot pj0 fuel) fuel

/-- Inner shift of the insertion sort: move larger entries one slot right,
then place `vi`. -/
def insShift (v : List ℚ) (vp : ℚ) (vi : Nat) (pl : Nat) : List Nat → Nat → Nat → List Nat
  | idx, pj, 0 => idx.set pj vi
  | idx, pj, fuel + 1 =>
    if pl < pj ∧ vp < lgetQ v (igeti idx (pj - 1)) then
      insShift v vp vi pl (idx.set pj (igeti idx (pj - 1))) (pj - 1) fuel
    else idx.set pj vi

/-- Insertion sort of the index range `[pl, pr]` (inclusive), `pi` running
from `pl + 1` upward. -/
def insRange (v : List ℚ) (pl pr : Nat) : List Nat → Nat → Nat → List Nat
  | idx, _, 0 => idx
  | idx, pi0, fuel + 1 =>
    if pr < pi0 then idx
    else insRange v pl pr
      (insShift v (lgetQ v (igeti idx pi0)) (igeti idx pi0) pl idx pi0 fuel) (pi0 + 1) fuel

/-- numpy `aquicksort` on the inclusive range `[pl, pr]`: ranges of more than
`SMALL_QUICKSORT = 15` elements are partitioned (median-of-three pivot moved
to `pr - 1`, Hoare walk, pivot swapped back to the crossing point), smaller
ranges are insertion sorted. -/
def npQSortRange (v : List ℚ) : List Nat → Nat → Nat → Nat → List Nat
  | idx, _, _, 0 => idx
  | idx, pl, pr, fuel + 1 =>
    if pr - pl ≤ 15 then insRange v pl pr idx (pl + 1) (fuel + 1)
    else
      let pm := pl + (pr - pl) / 2
      let idx1 := if lgetQ v (igeti idx pm) < lgetQ v (igeti idx pl) then iswap idx pm pl else idx
      let idx2 := if lgetQ v (igeti idx1 pr) < lgetQ v (igeti idx1 pm) then iswap idx1 pr pm
        else idx1
      let idx3 := if lgetQ v (igeti idx2 pm) < lgetQ v (igeti idx2 pl) then iswap idx2 pm pl
        else idx2
      let pivot := lgetQ v (igeti idx3 pm)
      let idx4 := iswap idx3 pm (pr - 1)
      let res := partLoop v pivot idx4 pl (pr - 1) (fuel + 1)
      let idx6 := iswap res.1 res.2 (pr - 1)
      npQSortRange v (npQSortRange v idx6 pl (res.2 - 1) fuel) (res.2 + 1) pr fuel

/-- `np.argsort(values, kind='quicksort')`: sort the identity index array by
the values. -/
def npArgsort (v : List ℚ) : List Nat :=
  npQSortRange v (List.range v.length) 0 (v.length - 1) (v.length * v.length + 100)

/-- `add_rank_column_to_summary` (runner.py lines 349-363): the rank column
inserted first is `range(1, len(df) + 1)` — rank `i + 1` for the row in final
position `i`. -/
def add_rank_column_to_summary {α : Type} (rows : List α) : List (Nat × α) :=
  List.zipWith (fun i r => (i + 1, r)) (List.range rows.length) rows

set_option maxRecDepth 40000 in
/-- C6 (code-bug evidence): the sort feeding the ranker,
`sort_values(by="CompositeScore", ascending=False)` with the default
`kind='quicksort'`, is NOT stable: on a table of 17 rows with identical
`CompositeScore`, numpy's quicksort argsort returns the permutation
`[0, 14, 13, 12, 11, 10, 9, 15, 8, 6, 5, 4, 3, 2, 1, 7, 16]` instead of the
identity — rows with equal scores do NOT keep their relative input order, so
the ranks `1..N` are assigned to a permuted tie order. -/
theorem np_quicksort_argsort_unstable_on_equal_keys :
    npArgsort (List.replicate 17 (0 : ℚ)) ≠ List.range 17 ∧
    npArgsort (List.replicate 17 (0 : ℚ)) =
      [0, 14, 13, 12, 11, 10, 9, 15, 8, 6, 5, 4, 3, 2, 1, 7, 16] := by
  refine ⟨by decide, by decide⟩

end TradeSummary
